import Mathlib

/-!
Verification development for the FinaleToolkit fragmentomics library.

Each Python function relevant to the checked claims is shallowly embedded
as an executable Lean definition, translated from the corresponding
source file.  Machine integers are modelled as `Int`/`Nat` (no overflow
is possible at the magnitudes involved), numpy float arithmetic on
half-integer window bounds is modelled exactly with `Int`/`ℚ`, and
fallible code paths are modelled with `Except`.
-/

namespace FinaleTools

/-- A fragment is a pair (start, stop) of genomic coordinates. -/
abbrev Frag := Int × Int

/-- Round-half-to-even of the half-integer n/2, the value `numpy.rint`
(and Python `round`) returns on inputs that are exact multiples of 1/2.
For even n this is the exact quotient; for odd n it is the even one of
the two neighbouring integers. -/
def rintHalf (n : Int) : Int :=
  if n % 2 = 0 then n / 2
  else
    let k := (n - 1) / 2
    if k % 2 = 0 then k else k + 1

/-- Round-half-to-even on ℚ: the semantics of `numpy.rint` and of
Python's built-in `round`, used to state window bounds the way the
claims state them (`round(p - window_size/2)`). -/
def roundHalfEven (q : ℚ) : Int :=
  if q - ⌊q⌋ < 1/2 then ⌊q⌋
  else if q - ⌊q⌋ > 1/2 then ⌊q⌋ + 1
  else if ⌊q⌋ % 2 = 0 then ⌊q⌋ else ⌊q⌋ + 1

/-- Embedding of `_single_wps` (src/src/finaletools/frag/__init__.py):
given the inclusive window [window_start, window_stop], counts fragments
fully spanning the window and fragments with an endpoint inside it, and
returns (window_position, num_spanning - num_end_in).  The numpy
boolean-array products and sums are modelled as sums of indicators. -/
def single_wps (window_start window_stop window_position : Int)
    (frag_ends : List Frag) : Int × Int :=
  let num_spanning : Int :=
    (frag_ends.map fun f =>
      if f.1 < window_start && f.2 > window_stop then (1 : Int) else 0).sum
  let num_end_in : Int :=
    (frag_ends.map fun f =>
      if (f.1 ≥ window_start && f.1 ≤ window_stop)
          || (f.2 ≥ window_start && f.2 ≤ window_stop)
      then (1 : Int) else 0).sum
  (window_position, num_spanning - num_end_in)

/-- Embedding of `_wps_loop` (src/src/finaletools/frag/__init__.py):
for each window center p in [start, stop), the window bounds are
rint(p - window_size*0.5) and rint(p + window_size*0.5 - 1), i.e.
`rintHalf` of 2p - window_size and of 2p + window_size - 2. -/
def wps_loop (frag_ends : List Frag) (start stop window_size : Int) :
    List (Int × Int) :=
  (List.range (stop - start).toNat).map fun (i : Nat) =>
    let p := start + (i : Int)
    single_wps (rintHalf (2 * p - window_size))
      (rintHalf (2 * p + window_size - 2)) p frag_ends

/-- Modelled from the spec: `finaletools.utils.frag_array` is not under
src/ (only its callers are).  Per spec section 4.1 it returns, for an
abstract per-contig fragment list, the accepted fragments intersecting
the [minimum, maximum) coordinate bound whose length lies in
[fraction_low, fraction_high]. -/
def frag_array (frags : List Frag)
    (minimum maximum fraction_low fraction_high : Int) : List Frag :=
  frags.filter fun f =>
    fraction_low ≤ f.2 - f.1 && f.2 - f.1 ≤ fraction_high
      && f.1 < maximum && f.2 > minimum

/-- Embedding of `wps` (src/src/finaletools/frag/__init__.py): fetches
fragments for the padded region [start - fraction_high, stop +
fraction_high), returns an all-zero score series when none exist and
otherwise runs the `_wps_loop` scan.  File output is omitted; the
returned score series is the value the callers consume. -/
def wps (frags : List Frag) (start stop : Int)
    (window_size fraction_low fraction_high : Int) : List (Int × Int) :=
  let frag_ends := frag_array frags (start - fraction_high)
    (stop + fraction_high) fraction_low fraction_high
  if frag_ends.isEmpty then
    (List.range (stop - start).toNat).map fun (i : Nat) => (start + (i : Int), 0)
  else
    wps_loop frag_ends start stop window_size

/-- One line of a site BED file as `aggregate_wps` sees it: contig and
start are parsed from columns 1-2; a strand field is present in column 6
of the file. -/
structure BedSite where
  contig : String
  start : Int
  strand : String

/-- Embedding of the live path of `aggregate_wps`
(src/src/finaletools/frag/__init__.py lines 447-489): every line of the
site BED contributes; only the contig and start fields are read (the
strand field is never consulted), `wps` is computed over
[start + left_of_site, start + right_of_site) for each site, and all
per-site series are summed position-wise into one series on positions
[left_of_site, right_of_site). -/
def aggregate_wps (genome : String → List Frag) (sites : List BedSite)
    (window_size size_around_sites fraction_low fraction_high : Int) :
    List (Int × Int) :=
  let left_of_site := rintHalf (-size_around_sites)
  let right_of_site := rintHalf size_around_sites
  let contig_scores := sites.map fun s =>
    wps (genome s.contig) (s.start + left_of_site) (s.start + right_of_site)
      window_size fraction_low fraction_high
  (List.range size_around_sites.toNat).map fun (i : Nat) =>
    (left_of_site + (i : Int),
      (contig_scores.map fun sc => ((sc.get? i).getD ((0 : Int), (0 : Int))).2).sum)

/-- Embedding of the site-selection logic of the (never invoked) helper
`_agg_wps_single_contig` (src/src/finaletools/frag/__init__.py lines
317-341): sites whose strand field contains a dot, or whose contig does
not contain the given contig name, are skipped; the score series of a
site whose strand contains a plus is kept as is; the series of a site
whose strand contains a minus is reversed; all other sites are
ignored.  Returned is the list of per-site series it would sum. -/
def agg_wps_single_contig_series (genome : String → List Frag)
    (contig : String) (sites : List BedSite)
    (window_size size_around_sites fraction_low fraction_high : Int) :
    List (List Int) :=
  let left_of_site := rintHalf (-size_around_sites)
  let right_of_site := rintHalf size_around_sites
  sites.filterMap fun s =>
    if s.strand.containsSubstr "." || !(s.contig.containsSubstr contig) then
      none
    else
      let single_scores := (wps (genome s.contig) (s.start + left_of_site)
        (s.start + right_of_site) window_size fraction_low
        fraction_high).map (·.2)
      if s.strand.containsSubstr "+" then some single_scores
      else if s.strand.containsSubstr "-" then some single_scores.reverse
      else none

/-- The example fragment source used to evaluate the aggregate-WPS code
path on concrete data: one fragment (998, 1002) on contig chr1. -/
def exGenome : String → List Frag :=
  fun c => if c == "chr1" then [(998, 1002)] else []

/-- The aggregate score series over a single "+"-strand site at chr1:1000
with window_size 4, size_around_sites 10, fraction bounds [2, 6], on the
`exGenome` fragments. -/
def aggregate_plus_series : List Int :=
  (aggregate_wps exGenome [⟨"chr1", 1000, "+"⟩] 4 10 2 6).map Prod.snd

/-- The claim's left window bound at position p: round(p - window_size/2)
with round-half-to-even, stated on ℚ. -/
def claim_window_start (p window_size : Int) : Int :=
  roundHalfEven ((p : ℚ) - (window_size : ℚ) / 2)

/-- The claim's right (inclusive) window bound at position p:
round(p + window_size/2 - 1) with round-half-to-even, stated on ℚ. -/
def claim_window_stop (p window_size : Int) : Int :=
  roundHalfEven ((p : ℚ) + (window_size : ℚ) / 2 - 1)

/-- The claim's spanning predicate: the fragment starts strictly before
the window and stops strictly after it. -/
def spanning (window_start window_stop : Int) (f : Frag) : Prop :=
  f.1 < window_start ∧ f.2 > window_stop

/-- The claim's endpoint predicate: the fragment's start or stop lies in
[window_start, window_stop] inclusive. -/
def endpoint_in (window_start window_stop : Int) (f : Frag) : Prop :=
  (window_start ≤ f.1 ∧ f.1 ≤ window_stop)
    ∨ (window_start ≤ f.2 ∧ f.2 ≤ window_stop)

instance spanning_decidable (ws we : Int) (f : Frag) :
    Decidable (spanning ws we f) :=
  inferInstanceAs (Decidable (_ ∧ _))

instance endpoint_in_decidable (ws we : Int) (f : Frag) :
    Decidable (endpoint_in ws we f) :=
  inferInstanceAs (Decidable (_ ∨ _))

/-- The per-fragment region test of `_delfi_single_window`
(src/src/finaletools/frag/delfi.py lines 89-105): both the fragment
start and the fragment stop lie inside the half-open region. -/
def in_region_both (r : Int × Int) (frag_start frag_stop : Int) : Bool :=
  frag_start ≥ r.1 && frag_start < r.2 && frag_stop ≥ r.1 && frag_stop < r.2

/-- The survival condition of `_delfi_single_window` lines 107-111: the
fragment (given as (start, template_length)) is in no blacklist region,
in no centromere region, and its length lies in [100, 220]. -/
def delfi_surviving (blacklist_regions centromeres : List (Int × Int))
    (f : Int × Int) : Bool :=
  !(blacklist_regions.any fun r => in_region_both r f.1 (f.1 + f.2))
    && !(centromeres.any fun r => in_region_both r f.1 (f.1 + f.2))
    && f.2 ≥ 100 && f.2 ≤ 220

/-- The three tallies `_delfi_single_window` accumulates over the reads
of a window: the list of short lengths, the list of long lengths, and
the count of surviving fragments. -/
structure DelfiTallies where
  short_lengths : List Int
  long_lengths : List Int
  num_frags : Nat
deriving DecidableEq

/-- Embedding of the fragment-classification loop of
`_delfi_single_window` (src/src/finaletools/frag/delfi.py lines
107-120): each surviving fragment appends the absolute value of its
length to the long list when its length is at least 151 and to the short
list otherwise, and increments num_frags. -/
def delfi_single_window_tallies (blacklist_regions centromeres : List (Int × Int)) :
    List (Int × Int) → DelfiTallies
  | [] => ⟨[], [], 0⟩
  | f :: rest =>
    let t := delfi_single_window_tallies blacklist_regions centromeres rest
    if delfi_surviving blacklist_regions centromeres f then
      if f.2 ≥ 151 then
        ⟨t.short_lengths, |f.2| :: t.long_lengths, t.num_frags + 1⟩
      else
        ⟨|f.2| :: t.short_lengths, t.long_lengths, t.num_frags + 1⟩
    else t

/-- One row of the structured window array `delfi` builds: coordinates,
short/long counts and gc fraction (an `Option ℚ` whose `none` models the
NaN undefined-value marker), and the fragment count. -/
structure DelfiWindow where
  contig : String
  start : Int
  stop : Int
  short : Option ℚ
  long : Option ℚ
  gc : Option ℚ
  num_frags : Nat
deriving DecidableEq

/-- Embedding of `numpy.percentile` with its default linear
interpolation: for a nonempty list, the value at virtual index
(n - 1) * q / 100 of the sorted data; 0 for an empty list (where numpy
raises). -/
def np_percentile (xs : List ℚ) (q : ℚ) : ℚ :=
  let s := xs.insertionSort (· ≤ ·)
  if s.isEmpty then 0
  else
    let n := s.length
    let r := ((n : ℚ) - 1) * q / 100
    let i := (⌊r⌋).toNat
    let lo := s.getD i 0
    let hi := s.getD (i + 1) lo
    lo + (r - (⌊r⌋ : ℚ)) * (hi - lo)

/-- The masking a trimmed bin receives in `trim_coverage`
(src/src/finaletools/frag/delfi.py lines 173-176): short, long and gc
become the undefined-value marker and num_frags becomes 0; the
coordinates are untouched. -/
def trim_mask (w : DelfiWindow) : DelfiWindow :=
  { w with short := none, long := none, gc := none, num_frags := 0 }

/-- Embedding of `trim_coverage` (src/src/finaletools/frag/delfi.py
lines 164-177): computes the trim_percentile-th percentile of num_frags
over all bins and masks every bin whose num_frags is strictly below it
(the mask `window_data['num_frags'] < ten_percentile`). -/
def trim_coverage (window_data : List DelfiWindow) (trim_percentile : ℚ) :
    List DelfiWindow :=
  let ten_percentile :=
    np_percentile (window_data.map fun w => (w.num_frags : ℚ)) trim_percentile
  window_data.map fun w =>
    if (w.num_frags : ℚ) < ten_percentile then trim_mask w else w

/-- Python's str.endswith, on the character lists of the strings. -/
def py_ends_with (s suffix : String) : Bool :=
  suffix.data.isSuffixOf s.data

/-- A concrete bin with 5 fragments. -/
def w5a : DelfiWindow := ⟨"chr1", 0, 100000, some 3, some 2, some (1/2), 5⟩

/-- A second concrete bin with 5 fragments. -/
def w5b : DelfiWindow := ⟨"chr1", 100000, 200000, some 4, some 1, some (2/5), 5⟩

/-- A concrete bin with 10 fragments. -/
def w5c : DelfiWindow := ⟨"chr2", 0, 100000, some 7, some 3, some (1/4), 10⟩

/-- A concrete bin with no fragments. -/
def w5d : DelfiWindow := ⟨"chr2", 100000, 200000, some 0, some 0, some 0, 0⟩

/-- Embedding of the output-suffix dispatch at the end of `delfi`
(src/src/finaletools/frag/delfi.py lines 302-322): an `if` statement
followed by an `if`/`elif` with no final `else`, so a suffix matching
none of .bed, .tsv, .bed.gz selects no write action at all.  Returns
the list of formats written. -/
def delfi_write_formats (output_file : String) : List String :=
  (if py_ends_with output_file ".bed" then ["bed"] else [])
    ++ (if py_ends_with output_file ".tsv" then ["tsv"]
        else if py_ends_with output_file ".bed.gz" then ["bed.gz"] else [])

/-- The tail of `delfi` after the worker pool: trim the window array,
then dispatch on the output-file suffix.  A `none` output_file (the
declared default) models Python's None: `None.endswith` raises
AttributeError, embedded as the error case. -/
def delfi_run (window_array : List DelfiWindow) (output_file : Option String) :
    Except String (List DelfiWindow × List String) :=
  let trimmed := trim_coverage window_array 10
  match output_file with
  | none => Except.error "AttributeError"
  | some f => Except.ok (trimmed, delfi_write_formats f)

/-- Embedding of Python `range(0, stop, step)` for step > 0: the starts
0, step, 2*step, ... strictly below stop. -/
def range_by (stop step : Nat) : List Nat :=
  (List.range ((stop + step - 1) / step)).map (· * step)

/-- Embedding of the window generation of `end_motifs`
(src/src/finaletools/frag/end_motifs.py lines 213-239): for each contig
of length L, one (start, start + 1000000) window per start of
range(0, L, 1000000), followed unconditionally by the trailing window
(L - L % 1000000, L). -/
def end_motifs_intervals (chroms : List (String × Nat)) :
    List (String × Nat × Nat) :=
  let window_size := 1000000
  chroms.flatMap fun c =>
    ((range_by c.2 window_size).map fun s => (c.1, s, s + window_size))
      ++ [(c.1, c.2 - c.2 % window_size, c.2)]

/-- A row of a gap track after `GenomeGaps.__init__` has filtered it by
type (src/src/finaletools/genome/gaps.py lines 42-53): contig and
half-open coordinates. -/
structure GapRecord where
  contig : String
  start : Int
  stop : Int
deriving DecidableEq

/-- The three typed record collections a GenomeGaps holds. -/
structure GenomeGaps where
  centromeres : List GapRecord
  telomeres : List GapRecord
  short_arms : List GapRecord
deriving DecidableEq

/-- Truthiness of a numpy boolean array, as evaluated by the Python
`or` operator in `GenomeGaps.in_tcmere`: an empty array is falsy, a
one-element array has the truthiness of its element, and a longer array
raises ValueError. -/
def npTruth : List Bool → Except String Bool
  | [] => Except.ok false
  | [b] => Except.ok b
  | _ => Except.error "ValueError: ambiguous truth value"

/-- The half-open overlap test used by `in_tcmere`:
stop > record.start and start < record.stop. -/
def overlaps (start stop : Int) (r : GapRecord) : Bool :=
  stop > r.start && start < r.stop

/-- Embedding of `GenomeGaps.in_tcmere`
(src/src/finaletools/genome/gaps.py lines 123-155): None (here
`Except.ok none`) when the contig has no centromere and no telomere
records; otherwise the Python value `in_centromere or in_telomeres`,
where in_centromere is a numpy boolean array over the contig's
centromere records and in_telomeres is true when the interval overlaps
at least one telomere record. -/
def GenomeGaps.in_tcmere (g : GenomeGaps) (contig : String)
    (start stop : Int) : Except String (Option Bool) :=
  let centromere := g.centromeres.filter fun r => r.contig == contig
  let telomeres := g.telomeres.filter fun r => r.contig == contig
  if centromere.isEmpty && telomeres.isEmpty then
    Except.ok none
  else do
    let in_centromere ← npTruth (centromere.map (overlaps start stop))
    let in_telomeres := decide (0 < telomeres.countP (overlaps start stop))
    Except.ok (some (in_centromere || in_telomeres))

/-- Python's str.replace scanning for the pattern "chr" left to right
and dropping every non-overlapping occurrence, on the character list. -/
def strip_chr_list : List Char → List Char
  | 'c' :: 'h' :: 'r' :: rest => strip_chr_list rest
  | c :: rest => c :: strip_chr_list rest
  | [] => []

/-- The contig name with every "chr" occurrence removed, as computed by
the f-strings in get_arm via contig.replace. -/
def strip_chr (contig : String) : String := ⟨strip_chr_list contig.data⟩

/-- Embedding of `GenomeGaps.get_arm`
(src/src/finaletools/genome/gaps.py lines 157-195): ValueError when
stop < start; IndexError when the contig has no centromere record (the
code indexes centromere['start'][0]); otherwise the three-way
classification against the first centromere record, with the short-arm
check only in the before-centromere branch. -/
def GenomeGaps.get_arm (g : GenomeGaps) (contig : String)
    (start stop : Int) : Except String String :=
  if stop < start then Except.error "start must be less than stop"
  else
    let centromere := g.centromeres.filter fun r => r.contig == contig
    let has_short_arm :=
      decide (0 < (g.short_arms.filter fun r => r.contig == contig).length)
    match centromere with
    | [] => Except.error "IndexError"
    | c :: _ =>
      if stop < c.start then
        if !has_short_arm then Except.ok ("p" ++ strip_chr contig)
        else Except.ok ""
      else if start > c.stop then Except.ok ("q" ++ strip_chr contig)
      else Except.ok ""

/-- The flattened per-contig view built by `get_contig_gaps`
(src/src/finaletools/genome/gaps.py lines 248-257). -/
structure ContigGaps where
  contig : String
  centromere : Int × Int
  telomeres : List (Int × Int)
  has_short_arm : Bool
deriving DecidableEq

/-- Embedding of `GenomeGaps.get_contig_gaps`
(src/src/finaletools/genome/gaps.py lines 197-212): indexes the
contig's first centromere record and first two telomere records (an
IndexError when they are missing), and records whether any short-arm
record exists. -/
def GenomeGaps.get_contig_gaps (g : GenomeGaps) (contig : String) :
    Except String ContigGaps :=
  match g.centromeres.filter (fun r => r.contig == contig),
      g.telomeres.filter (fun r => r.contig == contig) with
  | c :: _, t0 :: t1 :: _ =>
    Except.ok ⟨contig, (c.start, c.stop),
      [(t0.start, t0.stop), (t1.start, t1.stop)],
      decide (0 < (g.short_arms.filter fun r => r.contig == contig).length)⟩
  | _, _ => Except.error "IndexError"

/-- Embedding of `ContigGaps.in_tcmere`
(src/src/finaletools/genome/gaps.py lines 259-267): overlap with the
centromere pair, or — as written in the source — overlap with every
telomere pair (the generator is passed to `all`). -/
def ContigGaps.in_tcmere (cg : ContigGaps) (start stop : Int) : Bool :=
  (stop > cg.centromere.1 && start < cg.centromere.2)
    || cg.telomeres.all fun t => stop > t.1 && start < t.2

/-- Embedding of `ContigGaps.get_arm`
(src/src/finaletools/genome/gaps.py lines 269-281). -/
def ContigGaps.get_arm (cg : ContigGaps) (start stop : Int) :
    Except String String :=
  if stop < start then Except.error "start must be less than stop"
  else if stop < cg.centromere.1 then
    if !cg.has_short_arm then Except.ok ("p" ++ strip_chr cg.contig)
    else Except.ok ""
  else if start > cg.centromere.2 then Except.ok ("q" ++ strip_chr cg.contig)
  else Except.ok ""

/-- Concrete gap data: chr1 with centromere (100, 200), telomeres
(0, 10) and (290, 300), no short arm. -/
def gapsEx : GenomeGaps :=
  ⟨[⟨"chr1", 100, 200⟩], [⟨"chr1", 0, 10⟩, ⟨"chr1", 290, 300⟩], []⟩

/-- Concrete gap data: chr13 with centromere (100, 200), telomeres
(0, 10) and (290, 300), and a short-arm record (0, 100). -/
def gapsShortArm : GenomeGaps :=
  ⟨[⟨"chr13", 100, 200⟩], [⟨"chr13", 0, 10⟩, ⟨"chr13", 290, 300⟩],
    [⟨"chr13", 0, 100⟩]⟩

/-- Embedding of `EndMotifFreqs.__init__`
(src/src/finaletools/frag/end_motifs.py lines 45-60): the dict is built
from the argument first, then the validation generator iterates the
argument a second time and checks only that each key's length equals k
(the alphabet is never examined).  A one-shot iterator argument
(re_iterable = false) yields nothing on the second traversal, so the
check passes vacuously; a list argument (re_iterable = true) is
re-traversed in full. -/
def end_motif_freqs_init (kmer_frequencies : List (String × ℚ)) (k : Nat)
    (re_iterable : Bool) : Except String (List (String × ℚ)) :=
  let second_pass := if re_iterable then kmer_frequencies else []
  if second_pass.all fun kf => kf.1.length == k then
    Except.ok kmer_frequencies
  else
    Except.error "kmer_frequencies contains a kmer with length not equal to k."

/-- A string over the nucleotide alphabet, the property the claimed
EndMotifFreqs invariant asserts of every key. -/
def isACGT (s : String) : Bool :=
  s.toList.all fun c => c == 'A' || c == 'C' || c == 'G' || c == 'T'

/-! ## Theorems -/

theorem sum_ite_one_eq_countP (l : List Frag) (pred : Frag → Bool) :
    ((l.map fun f => if pred f then (1 : Int) else 0).sum)
      = (l.countP pred : Int) := by
  induction l with
  | nil => simp
  | cons a t ih =>
    simp only [List.map_cons, List.sum_cons, List.countP_cons, ih]
    split
    · simp
      omega
    · simp

theorem roundHalfEven_half (n : Int) :
    roundHalfEven ((n : ℚ) / 2) = rintHalf n := by
  obtain ⟨m, rfl | rfl⟩ := Int.even_or_odd' n
  · have hq : ((2 * m : Int) : ℚ) / 2 = (m : ℚ) := by push_cast; ring
    rw [hq]
    have h2 : (2 * m) % 2 = 0 := by omega
    have hd : (2 * m) / 2 = m := by omega
    simp only [roundHalfEven, rintHalf, Int.floor_intCast, h2, hd, if_pos rfl]
    have h0 : (m : ℚ) - (m : ℚ) = 0 := by ring
    rw [h0]
    norm_num
  · have hq : ((2 * m + 1 : Int) : ℚ) / 2 = (m : ℚ) + 1 / 2 := by
      push_cast; ring
    rw [hq]
    have hf : ⌊(m : ℚ) + 1 / 2⌋ = m := by
      rw [add_comm, Int.floor_add_int]
      norm_num
    have hodd : ¬((2 * m + 1) % 2 = 0) := by omega
    have hk : (2 * m + 1 - 1) / 2 = m := by omega
    rw [roundHalfEven, rintHalf, hf]
    have hfrac : (m : ℚ) + 1 / 2 - (m : ℚ) = 1 / 2 := by ring
    rw [hfrac]
    simp only [if_neg hodd, hk]
    norm_num

theorem claim_window_start_eq (p w : Int) :
    claim_window_start p w = rintHalf (2 * p - w) := by
  rw [claim_window_start, ← roundHalfEven_half]
  congr 1
  push_cast
  ring

theorem claim_window_stop_eq (p w : Int) :
    claim_window_stop p w = rintHalf (2 * p + w - 2) := by
  rw [claim_window_stop, ← roundHalfEven_half]
  congr 1
  push_cast
  ring

/-- C2: for every fragment set, position p in [start, stop) and
window_size, the score `_wps_loop` computes at p is num_spanning minus
num_endpoint_in over the inclusive window
[round(p - window_size/2), round(p + window_size/2 - 1)], where a
fragment spans iff its start is strictly before the window start and its
stop strictly after the window stop, and has an endpoint in the window
iff its start or stop lies in the window inclusively. -/
theorem wps_score_is_spanning_minus_endpoints (frag_ends : List Frag)
    (start stop window_size p : Int) (h1 : start ≤ p) (h2 : p < stop) :
    (wps_loop frag_ends start stop window_size)[(p - start).toNat]?
      = some (p,
          ((frag_ends.countP fun f =>
            decide (spanning (claim_window_start p window_size)
              (claim_window_stop p window_size) f)) : Int)
          - (frag_ends.countP fun f =>
            decide (endpoint_in (claim_window_start p window_size)
              (claim_window_stop p window_size) f))) := by
  have hlt : (p - start).toNat < (stop - start).toNat := by omega
  have harg : start + ((p - start).toNat : Int) = p := by omega
  rw [wps_loop, List.getElem?_map, List.getElem?_range hlt]
  simp only [Option.map_some', harg]
  rw [claim_window_start_eq, claim_window_stop_eq, single_wps,
    sum_ite_one_eq_countP, sum_ite_one_eq_countP]
  simp only [spanning, endpoint_in, Bool.decide_and, Bool.decide_or,
    ge_iff_le, gt_iff_lt]

/-- C2 witness: the spec's own example, one fragment (100, 400),
window_size 120, position 250: window [190, 309], one spanning
fragment, no endpoints inside, score 1. -/
theorem wps_score_is_spanning_minus_endpoints_witness :
    (wps_loop [((100 : Int), (400 : Int))] 250 251 120)[((250 : Int) - 250).toNat]?
      = some (250, 1) := by
  have h := wps_score_is_spanning_minus_endpoints [((100 : Int), (400 : Int))]
    250 251 120 250 (by norm_num) (by norm_num)
  rw [h]
  norm_num [claim_window_start, claim_window_stop, roundHalfEven, spanning,
    endpoint_in, List.countP]
  decide

/-- C1: evaluation of the live `aggregate_wps` path at a concrete input.
A single site on contig chr1 whose strand field is "." still contributes
its full per-site series to the aggregate (claimed to contribute
nothing); a "-"-strand site yields exactly the same aggregate as a
"+"-strand site over the same fragments (claimed to be reversed), and
that shared series is not its own reversal, so no reversal took
place. -/
theorem aggregate_wps_ignores_strand :
    (aggregate_wps exGenome [⟨"chr1", 1000, "."⟩] 4 10 2 6).map Prod.snd
        = [0, 0, -1, -1, -1, -1, -1, -1, -1, -1]
    ∧ (aggregate_wps exGenome [⟨"chr1", 1000, "."⟩] 4 10 2 6).map Prod.snd
        ≠ List.replicate 10 (0 : Int)
    ∧ aggregate_wps exGenome [⟨"chr1", 1000, "-"⟩] 4 10 2 6
        = aggregate_wps exGenome [⟨"chr1", 1000, "+"⟩] 4 10 2 6
    ∧ aggregate_plus_series.reverse ≠ aggregate_plus_series := by
  decide

/-- C3: over any window, `_delfi_single_window` counts as short exactly
the surviving fragments of length at most 150, as long exactly the
surviving fragments of length at least 151, counts every surviving
fragment in num_frags, and no fragment whose length falls outside
[100, 220] survives into either tally. -/
theorem delfi_window_classification (bl ct : List (Int × Int))
    (frags : List (Int × Int)) :
    (delfi_single_window_tallies bl ct frags).short_lengths.length
        = frags.countP (fun f => delfi_surviving bl ct f && f.2 ≤ 150)
    ∧ (delfi_single_window_tallies bl ct frags).long_lengths.length
        = frags.countP (fun f => delfi_surviving bl ct f && f.2 ≥ 151)
    ∧ (delfi_single_window_tallies bl ct frags).num_frags
        = frags.countP (delfi_surviving bl ct)
    ∧ frags.countP
        (fun f => delfi_surviving bl ct f && (f.2 < 100 || f.2 > 220)) = 0 := by
  induction frags with
  | nil => simp [delfi_single_window_tallies]
  | cons f t ih =>
    obtain ⟨ih1, ih2, ih3, ih4⟩ := ih
    have hrange : delfi_surviving bl ct f = true →
        (100 : Int) ≤ f.2 ∧ f.2 ≤ 220 := by
      intro h
      simp only [delfi_surviving, Bool.and_eq_true, decide_eq_true_eq,
        ge_iff_le] at h
      exact ⟨h.1.2, h.2⟩
    by_cases hs : delfi_surviving bl ct f = true
    · by_cases hl : (151 : Int) ≤ f.2
      · simp [delfi_single_window_tallies, hs, hl, List.countP_cons,
          ih1, ih2, ih3, ih4, hrange hs]
        omega
      · have hl' : f.2 ≤ 150 := by omega
        simp [delfi_single_window_tallies, hs, hl, hl', List.countP_cons,
          ih1, ih2, ih3, ih4, hrange hs]
    · simp [delfi_single_window_tallies, hs, List.countP_cons,
        ih1, ih2, ih3, ih4]

/-- C4 counterexample: with two bins both holding 5 fragments, the 10th
percentile of num_frags is 5, and both bins have num_frags at (hence at
or below) that percentile; yet `trim_coverage` leaves both bins entirely
untouched, because its mask is the strict comparison
num_frags < percentile.  In particular a bin at the percentile keeps its
short value and its nonzero num_frags, contradicting the claim. -/
theorem trim_coverage_at_percentile_not_trimmed :
    np_percentile ([w5a, w5b].map fun w => ((w.num_frags : ℚ))) 10 = 5
    ∧ trim_coverage [w5a, w5b] 10 = [w5a, w5b]
    ∧ w5a.short = some 3 ∧ w5a.num_frags = 5 := by
  refine ⟨?_, ?_, rfl, rfl⟩
  · norm_num [np_percentile, List.insertionSort, List.orderedInsert, w5a, w5b]
  · norm_num [trim_coverage, np_percentile, List.insertionSort,
      List.orderedInsert, w5a, w5b]

/-- C4 amended: letting P be the trim_percentile-th percentile of
num_frags over all bins, `trim_coverage` masks exactly the bins whose
num_frags is strictly below P (setting short, long and gc to the
undefined marker and num_frags to 0 while preserving the coordinates)
and leaves every bin with num_frags at or above P entirely unchanged. -/
theorem trim_coverage_strict_characterization (ws : List DelfiWindow)
    (p : ℚ) (i : Nat) (w : DelfiWindow) (h : ws[i]? = some w) :
    (trim_coverage ws p)[i]? =
        some (if (w.num_frags : ℚ)
                  < np_percentile (ws.map fun v => (v.num_frags : ℚ)) p
              then trim_mask w else w)
    ∧ (trim_mask w).contig = w.contig
    ∧ (trim_mask w).start = w.start
    ∧ (trim_mask w).stop = w.stop
    ∧ (trim_mask w).short = none ∧ (trim_mask w).long = none
    ∧ (trim_mask w).gc = none ∧ (trim_mask w).num_frags = 0 := by
  refine ⟨?_, rfl, rfl, rfl, rfl, rfl, rfl, rfl⟩
  simp only [trim_coverage, List.getElem?_map, h, Option.map_some']

/-- C4 witness: with bins of 10 and 0 fragments the 10th percentile is
1, so the 0-fragment bin is strictly below it and comes back masked. -/
theorem trim_coverage_strict_characterization_witness :
    (trim_coverage [w5c, w5d] 10)[1]? = some (trim_mask w5d) := by
  have h := (trim_coverage_strict_characterization [w5c, w5d] 10 1 w5d rfl).1
  rw [h]
  norm_num [np_percentile, List.insertionSort, List.orderedInsert, w5c, w5d]

/-- C5: evaluation of the `end_motifs` window generation at a contig of
length 1,500,000.  The range loop already emits the full-width window
(1000000, 2000000) and the unconditionally appended trailing window is
(1000000, 1500000), so position 1,200,000 lies in two distinct windows:
the generated window list does not partition [0, L). -/
theorem end_motifs_windows_double_cover :
    end_motifs_intervals [("contig1", 1500000)]
        = [("contig1", 0, 1000000), ("contig1", 1000000, 2000000),
           ("contig1", 1000000, 1500000)]
    ∧ (end_motifs_intervals [("contig1", 1500000)]).countP
        (fun w => decide (w.2.1 ≤ 1200000 ∧ 1200000 < w.2.2)) = 2 := by
  decide

/-- C6: evaluation at concrete gap data (centromere (100, 200),
telomeres (0, 10) and (290, 300) on chr1).  The interval [0, 5) overlaps
the telomere record (0, 10), and `GenomeGaps.in_tcmere` returns true for
it; but the ContigGaps view produced by `get_contig_gaps` returns false
for the same interval, because `ContigGaps.in_tcmere` demands overlap
with every telomere instead of some telomere. -/
theorem contig_gaps_in_tcmere_diverges :
    gapsEx.in_tcmere "chr1" 0 5 = Except.ok (some true)
    ∧ (gapsEx.get_contig_gaps "chr1").map (fun cg => cg.in_tcmere 0 5)
        = Except.ok false
    ∧ overlaps 0 5 ⟨"chr1", 0, 10⟩ = true := by
  refine ⟨rfl, rfl, rfl⟩

/-- C7 counterexample: on a contig that has a short-arm record, an
interval lying entirely after the centromere is classified "q13", not
the empty string, so the claim's clause "returns the empty string when
... the contig has a short arm" fails on the code. -/
theorem get_arm_short_arm_q_cex :
    gapsShortArm.get_arm "chr13" 250 300 = Except.ok "q13"
    ∧ 0 < (gapsShortArm.short_arms.filter fun r => r.contig == "chr13").length
    ∧ "q13" ≠ "" := by
  refine ⟨rfl, by decide, by decide⟩

/-- C7 amended: for a contig whose filtered centromere list starts with
record c, get_arm raises the invalid-argument error exactly when
stop < start; otherwise it returns "p" plus the chr-stripped contig name
when stop < c.start and the contig has no short-arm record, the empty
string when stop < c.start and a short-arm record exists, "q" plus the
stripped name when start > c.stop (regardless of short arm), and the
empty string in the remaining cases; `ContigGaps.get_arm` satisfies the
same characterization over its flattened fields. -/
theorem get_arm_characterization (g : GenomeGaps) (contig : String)
    (start stop : Int) (c : GapRecord) (rest : List GapRecord)
    (hc : g.centromeres.filter (fun r => r.contig == contig) = c :: rest)
    (cg : ContigGaps) :
    (stop < start →
      g.get_arm contig start stop = Except.error "start must be less than stop")
    ∧ (start ≤ stop → stop < c.start →
        (g.short_arms.filter fun r => r.contig == contig) = [] →
        g.get_arm contig start stop = Except.ok ("p" ++ strip_chr contig))
    ∧ (start ≤ stop → stop < c.start →
        (g.short_arms.filter fun r => r.contig == contig) ≠ [] →
        g.get_arm contig start stop = Except.ok "")
    ∧ (start ≤ stop → c.start ≤ stop → c.stop < start →
        g.get_arm contig start stop = Except.ok ("q" ++ strip_chr contig))
    ∧ (start ≤ stop → c.start ≤ stop → start ≤ c.stop →
        g.get_arm contig start stop = Except.ok "")
    ∧ (stop < start →
        cg.get_arm start stop = Except.error "start must be less than stop")
    ∧ (start ≤ stop → stop < cg.centromere.1 → cg.has_short_arm = false →
        cg.get_arm start stop = Except.ok ("p" ++ strip_chr cg.contig))
    ∧ (start ≤ stop → stop < cg.centromere.1 → cg.has_short_arm = true →
        cg.get_arm start stop = Except.ok "")
    ∧ (start ≤ stop → cg.centromere.1 ≤ stop → cg.centromere.2 < start →
        cg.get_arm start stop = Except.ok ("q" ++ strip_chr cg.contig))
    ∧ (start ≤ stop → cg.centromere.1 ≤ stop → start ≤ cg.centromere.2 →
        cg.get_arm start stop = Except.ok "") := by
  refine ⟨?_, ?_, ?_, ?_, ?_, ?_, ?_, ?_, ?_, ?_⟩
  · intro h
    simp [GenomeGaps.get_arm, h]
  · intro h1 h2 h3
    simp [GenomeGaps.get_arm, hc, h3, h2, not_lt.mpr h1]
  · intro h1 h2 h3
    have h3' : 0 < (g.short_arms.filter fun r => r.contig == contig).length :=
      List.length_pos.mpr h3
    simp [GenomeGaps.get_arm, hc, h3', h2, not_lt.mpr h1]
  · intro h1 h2 h3
    simp [GenomeGaps.get_arm, hc, not_lt.mpr h1, not_lt.mpr h2, h3]
  · intro h1 h2 h3
    simp [GenomeGaps.get_arm, hc, not_lt.mpr h1, not_lt.mpr h2, not_lt.mpr h3]
  · intro h
    simp [ContigGaps.get_arm, h]
  · intro h1 h2 h3
    simp [ContigGaps.get_arm, h2, h3, not_lt.mpr h1]
  · intro h1 h2 h3
    simp [ContigGaps.get_arm, h2, h3, not_lt.mpr h1]
  · intro h1 h2 h3
    simp [ContigGaps.get_arm, not_lt.mpr h1, not_lt.mpr h2, h3]
  · intro h1 h2 h3
    simp [ContigGaps.get_arm, not_lt.mpr h1, not_lt.mpr h2, not_lt.mpr h3]

/-- C7 witness: on the concrete gapsEx data (centromere (100, 200) on
chr1, no short arm) the interval [250, 300] lies entirely after the
centromere and is classified as the q arm. -/
theorem get_arm_characterization_witness :
    gapsEx.get_arm "chr1" 250 300 = Except.ok ("q" ++ strip_chr "chr1") :=
  (get_arm_characterization gapsEx "chr1" 250 300 ⟨"chr1", 100, 200⟩ []
    rfl ⟨"chr1", (100, 200), [(0, 10), (290, 300)], false⟩).2.2.2.1
    (by norm_num) (by norm_num) (by norm_num)

/-- C8: evaluation of the delfi output dispatch at an output path with
an unhandled suffix: the suffix chain selects no write action and the
run completes successfully with nothing written, instead of being
rejected with an error. -/
theorem delfi_unknown_suffix_completes_silently :
    delfi_run [w5a, w5b] (some "delfi_output.txt")
        = Except.ok (trim_coverage [w5a, w5b] 10, [])
    ∧ delfi_write_formats "delfi_output.txt" = [] := by
  exact ⟨rfl, rfl⟩

/-- C9 counterexample: the constructor accepts keys outside the
{A,C,G,T} alphabet whenever their length is k (the alphabet is never
validated), and with a one-shot iterator argument it even accepts keys
of the wrong length, because the validation pass re-iterates an already
exhausted iterator. -/
theorem end_motif_freqs_init_alphabet_cex :
    end_motif_freqs_init [("NN", 1)] 2 true = Except.ok [("NN", 1)]
    ∧ isACGT "NN" = false
    ∧ end_motif_freqs_init [("XYZ", 1)] 2 false = Except.ok [("XYZ", 1)]
    ∧ "XYZ".length ≠ 2 := by
  refine ⟨rfl, rfl, rfl, by decide⟩

/-- C9 amended: for every key-frequency list (a re-iterable argument)
the constructor accepts without error, every key of the resulting
mapping has length exactly k; membership in the {A,C,G,T} alphabet is
not part of the enforced invariant. -/
theorem end_motif_freqs_init_keys_length (kfs : List (String × ℚ)) (k : Nat)
    (result : List (String × ℚ))
    (h : end_motif_freqs_init kfs k true = Except.ok result) :
    ∀ kv ∈ result, kv.1.length = k := by
  unfold end_motif_freqs_init at h
  simp only [if_pos, if_true] at h
  split at h
  · next hall =>
    cases h
    intro kv hkv
    have := List.all_eq_true.mp hall kv hkv
    simpa using this
  · cases h

/-- C9 witness: applying the length guarantee to the accepted concrete
list [("AC", 1)] with k = 2. -/
theorem end_motif_freqs_init_keys_length_witness :
    (("AC" : String), (1 : ℚ)).1.length = 2 :=
  end_motif_freqs_init_keys_length [("AC", 1)] 2 [("AC", 1)] rfl
    ("AC", 1) (by simp)

/-- C10: with the declared default output_file = None, the delfi run
always fails at the output-writing step (the None path is dereferenced
by the suffix check), for every window array. -/
theorem delfi_none_output_always_fails (window_array : List DelfiWindow) :
    delfi_run window_array none = Except.error "AttributeError" := rfl

end FinaleTools



